import Mathlib

/-!
Shallow embedding of `molsim/functions.py` (the `velocity_stack` pipeline and its
private `ObsChunk` class), together with proofs checking the natural-language
specification against it.

Modelling conventions:
* python/numpy floating-point values are modelled as `Option ℚ`; `none` stands for
  a non-finite value (NaN, or the result of a division by zero).  All arithmetic
  helpers propagate `none` the way IEEE arithmetic propagates NaN, and ordered
  comparisons involving `none` are false, as NaN comparisons are in numpy.
* numpy arrays are `List`s; python slicing and slice assignment are `pySlice` and
  `pySetSlice` below.
* the external primitives imported from `molsim.utils` / `molsim.stats`
  (`find_peaks`, `find_nearest`, `_find_nans`, `get_rms`, `_get_res`) are not part
  of this source file; the pipeline is parameterised over them through the `Prims`
  record, and concrete stand-ins modelled from the specification are provided in
  `specPrims` for closed evaluations.
* exceptions raised by the python code (KeyError, IndexError, ValueError,
  TypeError) are modelled with `Except Err`.
-/

namespace Molsim

/-- Decidable equality for `Except`, used to evaluate closed pipeline runs. -/
instance {ε α : Type} [DecidableEq ε] [DecidableEq α] : DecidableEq (Except ε α) :=
  fun a b =>
    match a, b with
    | .error e, .error f =>
      if h : e = f then .isTrue (by rw [h])
      else .isFalse (fun hc => h (by cases hc; rfl))
    | .error _, .ok _ => .isFalse (fun hc => Except.noConfusion hc)
    | .ok _, .error _ => .isFalse (fun hc => Except.noConfusion hc)
    | .ok a, .ok b =>
      if h : a = b then .isTrue (by rw [h])
      else .isFalse (fun hc => h (by cases hc; rfl))

/-- Floating-point value: `some q` is a finite value, `none` is NaN/non-finite. -/
abbrev Val := Option ℚ

/-- NaN-propagating addition. -/
def optAdd (a b : Val) : Val :=
  match a, b with
  | some x, some y => some (x + y)
  | _, _ => none

/-- NaN-propagating subtraction. -/
def optSub (a b : Val) : Val :=
  match a, b with
  | some x, some y => some (x - y)
  | _, _ => none

/-- NaN-propagating multiplication. -/
def optMul (a b : Val) : Val :=
  match a, b with
  | some x, some y => some (x * y)
  | _, _ => none

/-- NaN-propagating division; a zero divisor yields a non-finite result
(numpy emits inf or NaN there), modelled as `none`. -/
def fdiv (a b : Val) : Val :=
  match a, b with
  | some x, some y => if y = 0 then none else some (x / y)
  | _, _ => none

/-- NaN-propagating absolute value. -/
def optAbs (a : Val) : Val := a.map (fun x => |x|)

/-- Strict comparison `a > b`; false whenever an operand is NaN, as in numpy. -/
def optGT (a b : Val) : Bool :=
  match a, b with
  | some x, some y => decide (y < x)
  | _, _ => false

/-- Order on float values: both finite and ordered. -/
def optLe (a b : Val) : Prop := ∃ x y, a = some x ∧ b = some y ∧ x ≤ y

/-- Model of `np.nanmax`: maximum ignoring NaN entries; NaN when no valid entry. -/
def optNanMax (l : List Val) : Val :=
  l.foldl
    (fun acc x =>
      match acc, x with
      | none, x => x
      | acc, none => acc
      | some a, some b => some (max a b))
    none

/-- Model of python's builtin `max` on a list of float values: fold keeping the
current value unless a later element compares strictly greater (so NaN entries
after the first element are skipped).  Python raises ValueError on an empty
sequence; the caller (`stackFromChunks`) guards that case, and `none` is returned
here for totality. -/
def pyMax (l : List Val) : Val :=
  match l with
  | [] => none
  | h :: t => t.foldl (fun acc x => if optGT x acc then x else acc) h

/-- Model of `np.nansum` over a list of float values: NaN entries count as zero. -/
def nansum (l : List Val) : ℚ :=
  l.foldl (fun acc v => acc + v.getD 0) 0

/-- Python slice `a[x:y]` (for nonnegative bounds, as produced by index lookups). -/
def pySlice (a : List α) (x y : Nat) : List α := (a.take y).drop x

/-- Python slice assignment `a[x:_] = vals` where `vals` has the length of the
addressed slice: write `vals` starting at position `x`. -/
def pySetSlice (a : List α) (x : Nat) (vals : List α) : List α :=
  a.take x ++ vals ++ a.drop (x + vals.length)

/-- Python slice `a[5:-5]`, used to drop edge channels. -/
def trimEdges (a : List α) : List α := (a.drop 5).take (a.length - 10)

/-- Model of `np.arange start stop step` for a positive rational step. -/
def arangeQ (start stop step : ℚ) : List ℚ :=
  (List.range (Int.toNat ⌈(stop - start) / step⌉)).map (fun i => start + i * step)

/-- Speed of light in km/s, the `ckm` constant imported from `molsim.constants`. -/
def ckm : ℚ := 299792458 / 1000

/-- Index used by `ObsChunk.set_cfreq`: `int(round(len(freq_obs)/2))` with
python's round-half-to-even. -/
def cfreqIdx (n : Nat) : Nat :=
  if n % 2 = 0 then n / 2
  else if (n / 2) % 2 = 0 then n / 2 else n / 2 + 1

/-- The private `ObsChunk` class of `velocity_stack`.  Fields set by later
pipeline stages (`weight`, `int_weighted`, `int_sim_weighted`, `int_samp`,
`int_sim_samp`) default to `none`/`[]`, standing for python attributes not yet
assigned. -/
structure ObsChunk where
  freq_obs : List ℚ
  int_obs : List Val
  freq_sim : List ℚ
  int_sim : List Val
  peak_int : Val
  id : Nat
  flag : Bool
  rms : Val
  cfreq : ℚ
  velocity : List ℚ
  sim_velocity : List ℚ
  weight : Val := none
  int_weighted : List Val := []
  int_sim_weighted : List Val := []
  int_samp : List Val := []
  int_sim_samp : List Val := []
  deriving Repr, DecidableEq

/-- The external primitives `velocity_stack` imports from `molsim.utils` and
`molsim.stats`; they are not part of this source file, so the pipeline is
parameterised over them. -/
structure Prims where
  find_peaks : List ℚ → List Val → ℚ → ℚ → List Nat
  find_nearestQ : List ℚ → ℚ → Nat
  find_nearestV : List Val → Val → Nat
  find_nans : List Val → List Nat × List Nat
  get_rms : List Val → Val
  get_res : List ℚ → ℚ

/-- Modelled from the spec: "nearest-index lookup on a monotonic array" — the
index of the array element closest to the query (first index on ties, as
`np.argmin` returns the first minimiser). -/
def find_nearest_model (xs : List ℚ) (v : ℚ) : Nat :=
  match xs with
  | [] => 0
  | h :: t =>
    (t.foldl
      (fun st x =>
        match st with
        | (best, bestIdx, i) =>
          if |x - v| < best then (|x - v|, i, i + 1) else (best, bestIdx, i + 1))
      (|h - v|, 0, 1)).2.1

/-- Modelled from the spec: the value-based variant of the nearest lookup used at
lines 209-210 of the source, where `find_nearest` is applied to an intensity
array that may hold NaN entries and to a possibly-NaN query.  Follows
`np.argmin` semantics: if any absolute difference is NaN (a NaN entry, or a NaN
query) the first such index is returned, otherwise the first minimiser. -/
def find_nearestV_model (xs : List Val) (v : Val) : Nat :=
  match v with
  | none => 0
  | some q =>
    match xs.findIdx? (fun x => x.isNone) with
    | some i => i
    | none => find_nearest_model (xs.map (fun x => x.getD 0)) q

/-- Modelled from the spec: "contiguous-missing-run finder returning run boundary
indices" — for each maximal run of NaN entries, the index of its first entry and
the index of its last entry. -/
def find_nans_model (xs : List Val) : List Nat × List Nat :=
  let st := xs.foldl
    (fun st x =>
      match st with
      | (i, inRun, lls, uls) =>
        match x, inRun with
        | none, false => (i + 1, true, lls ++ [i], uls)
        | none, true => (i + 1, true, lls, uls)
        | some _, true => (i + 1, false, lls, uls ++ [i - 1])
        | some _, false => (i + 1, false, lls, uls))
    (0, false, ([] : List Nat), ([] : List Nat))
  match st with
  | (i, inRun, lls, uls) => (lls, if inRun then uls ++ [i - 1] else uls)

/-- Modelled from the spec: "local RMS estimate" of an intensity array,
missing-value-aware.  Exact square roots leave ℚ, so the mean of squares of the
valid samples (the squared RMS, `none` when no valid sample exists) stands in;
no theorem below depends on its scale. -/
def get_rms_model (l : List Val) : Val :=
  let valid := l.filterMap (fun x => x)
  match valid with
  | [] => none
  | _ => some ((valid.map (fun x => x ^ 2)).sum / valid.length)

/-- Modelled from the spec: resolution "derived from freq_arr spacing" — the
spacing of the first two samples. -/
def get_res_model (l : List ℚ) : ℚ :=
  match l with
  | a :: b :: _ => b - a
  | _ => 0

/-- Modelled from the spec: "feature/peak finder ... returning candidate
indices" — indices of strict local maxima of the valid samples.  No theorem
below depends on its output. -/
def find_peaks_model (_freq : List ℚ) (ints : List Val) (_res _sep : ℚ) : List Nat :=
  (List.range ints.length).filter
    (fun i =>
      optGT (ints.getD i none) (if i = 0 then none else ints.getD (i - 1) none) &&
      optGT (ints.getD i none) (ints.getD (i + 1) none))

/-- Concrete instantiation of the external primitives, each modelled from the
spec, for closed evaluations. -/
def specPrims : Prims where
  find_peaks := find_peaks_model
  find_nearestQ := find_nearest_model
  find_nearestV := find_nearestV_model
  find_nans := find_nans_model
  get_rms := get_rms_model
  get_res := get_res_model

/-- Constructor of `ObsChunk` (lines 93-131): stores the six arguments, then runs
`set_rms`, `set_cfreq`, `set_velocity`, `set_sim_velocity`.  `set_cfreq` indexes
`freq_obs[int(round(len(freq_obs)/2))]`, which raises IndexError when `freq_obs`
is empty; that failure is modelled as `none`. -/
def mkObsChunk (P : Prims) (freq_obs : List ℚ) (int_obs : List Val)
    (freq_sim : List ℚ) (int_sim : List Val) (peak_int : Val) (id : Nat) :
    Option ObsChunk :=
  let rms := P.get_rms int_obs
  match freq_obs.get? (cfreqIdx freq_obs.length) with
  | none => none
  | some cfreq =>
    some
      { freq_obs := freq_obs
        int_obs := int_obs
        freq_sim := freq_sim
        int_sim := int_sim
        peak_int := peak_int
        id := id
        flag := false
        rms := rms
        cfreq := cfreq
        velocity := freq_obs.map (fun f => (f - cfreq) * ckm / cfreq)
        sim_velocity := freq_sim.map (fun f => (f - cfreq) * ckm / cfreq) }

/-- Configuration after the unpacking block (lines 135-150) resolves defaults.
The required key `vlsr` is presence-checked by the unpacking and then only
printed (line 178), so it has no field here; `selection` is read directly from
the params mapping at line 156 and is likewise not a field. -/
structure Config where
  freq_arr : List ℚ
  int_arr : List Val
  freq_sim : List ℚ
  int_sim : List Val
  res_inp : ℚ
  dV : ℚ
  dV_ext : Option ℚ
  vel_width : ℚ
  v_res : ℚ
  drops : List Nat
  blank_lines : Bool
  blank_keep_range : ℚ × ℚ
  flag_lines : Bool
  flag_sigma : ℚ
  deriving Repr, DecidableEq

/-- Blanking pass (lines 194-216): save the slice between the samples nearest
`cfreq - hi*cfreq/ckm` and `cfreq - lo*cfreq/ckm` in both arrays, blank observed
samples whose magnitude exceeds `flag_sigma * rms`, propagate the blanked runs to
`int_sim` through the value-based nearest lookup of the run-boundary entries,
restore the saved slices, and recompute `rms` from the blanked-and-restored
`int_obs`. -/
def blankMask (flag_sigma : ℚ) (rms : Val) (l : List Val) : List Val :=
  l.map (fun v => if optGT (optAbs v) (optMul (some flag_sigma) rms) then none else v)

/-- The sim-side blanking loop of lines 211-212: `obs.int_sim[x:y] = np.nan` for
each mapped run span. -/
def simBlankRuns (spans : List (Nat × Nat)) (l : List Val) : List Val :=
  spans.foldl
    (fun arr xy => arr.mapIdx (fun i v => if xy.1 ≤ i ∧ i < xy.2 then none else v))
    l

def blankPass (P : Prims) (cfg : Config) (c : ObsChunk) : ObsChunk :=
  let lo := cfg.blank_keep_range.1
  let hi := cfg.blank_keep_range.2
  let ll_obs := P.find_nearestQ c.freq_obs (c.cfreq - hi * c.cfreq / ckm)
  let ul_obs := P.find_nearestQ c.freq_obs (c.cfreq - lo * c.cfreq / ckm)
  let ll_sim := P.find_nearestQ c.freq_sim (c.cfreq - hi * c.cfreq / ckm)
  let ul_sim := P.find_nearestQ c.freq_sim (c.cfreq - lo * c.cfreq / ckm)
  let obs_safe := pySlice c.int_obs ll_obs ul_obs
  let sim_safe := pySlice c.int_sim ll_sim ul_sim
  let blanked := blankMask cfg.flag_sigma c.rms c.int_obs
  let nans := P.find_nans blanked
  let obs_nans_freqs_lls := nans.1.map (fun i => blanked.getD i none)
  let obs_nans_freqs_uls := nans.2.map (fun i => blanked.getD i none)
  let sim_nans_lls := obs_nans_freqs_lls.map (P.find_nearestV c.int_sim)
  let sim_nans_uls := obs_nans_freqs_uls.map (P.find_nearestV c.int_sim)
  let simBlanked := simBlankRuns (sim_nans_lls.zip sim_nans_uls) c.int_sim
  let int_obs2 := pySetSlice blanked ll_obs obs_safe
  let int_sim2 := pySetSlice simBlanked ll_sim sim_safe
  { c with int_obs := int_obs2, int_sim := int_sim2, rms := P.get_rms int_obs2 }

/-- Per-chunk cleaning (lines 181-221): skip already-flagged chunks, flag an
empty observed window, flag an id listed in `drops`, optionally blank, and
optionally flag a chunk whose NaN-aware maximum still exceeds
`flag_sigma * rms`. -/
def cleanChunk (P : Prims) (cfg : Config) (c : ObsChunk) : ObsChunk :=
  if c.flag then c
  else if c.freq_obs.length = 0 then { c with flag := true }
  else if c.id ∈ cfg.drops then { c with flag := true }
  else
    let c1 := if cfg.blank_lines then blankPass P cfg c else c
    if cfg.flag_lines &&
        optGT (optNanMax c1.int_obs) (optMul (some cfg.flag_sigma) c1.rms) then
      { c1 with flag := true }
    else c1

/-- Flagging/cleaning loop over the chunk list. -/
def flagStage (P : Prims) (cfg : Config) (chunks : List ObsChunk) : List ObsChunk :=
  chunks.map (cleanChunk P cfg)

/-- Weight formula of lines 227-228: `(peak_int / max_int) / rms**2`. -/
def obs_weight (peak_int max_int rms : Val) : Val :=
  fdiv (fdiv peak_int max_int) (optMul rms rms)

/-- Weighting of one chunk (lines 226-230), applied only to unflagged chunks. -/
def weightChunk (max_int : Val) (c : ObsChunk) : ObsChunk :=
  if c.flag = false then
    let w := obs_weight c.peak_int max_int c.rms
    { c with
      weight := w
      int_weighted := c.int_obs.map (fun v => optMul v w)
      int_sim_weighted := c.int_sim.map (fun v => optMul v w) }
  else c

/-- Weighting loop (lines 225-230). -/
def weightStage (max_int : Val) (chunks : List ObsChunk) : List ObsChunk :=
  chunks.map (weightChunk max_int)

/-- Linear interpolation between two samples, with NaN propagation. -/
def lerpVal (x0 : ℚ) (f0 : Val) (x1 : ℚ) (f1 : Val) (x : ℚ) : Val :=
  optAdd f0 (optMul (fdiv (optSub f1 f0) (some (x1 - x0))) (some (x - x0)))

/-- Interior scan of `np.interp`: walk the sample pairs until the query falls
before the next abscissa, then interpolate on the current segment. -/
def interpAux (x x0 : ℚ) (f0 : Val) : List (ℚ × Val) → Val
  | [] => f0
  | (x1, f1) :: t => if x < x1 then lerpVal x0 f0 x1 f1 x else interpAux x x1 f1 t

/-- Model of `np.interp x xp fp` with `left` and `right` both NaN, as called at
lines 238-239: queries strictly below the first abscissa or strictly above the
last give NaN. -/
def np_interp (x : ℚ) (xp : List ℚ) (fp : List Val) : Val :=
  match xp, fp with
  | [], _ => none
  | _, [] => none
  | x0 :: xs, f0 :: fs =>
    if x < x0 then none
    else if List.getLastD xs x0 < x then none
    else interpAux x x0 f0 (xs.zip fs)

/-- Resampling of one chunk onto the shared velocity grid (lines 237-239). -/
def resampleChunk (grid : List ℚ) (c : ObsChunk) : ObsChunk :=
  if c.flag = false then
    { c with
      int_samp := grid.map (fun g => np_interp g c.velocity c.int_weighted)
      int_sim_samp := grid.map (fun g => np_interp g c.sim_velocity c.int_sim_weighted) }
  else c

/-- Resampling loop (lines 236-239). -/
def resampleStage (grid : List ℚ) (chunks : List ObsChunk) : List ObsChunk :=
  chunks.map (resampleChunk grid)

/-- Surviving chunks, in candidate order (the gathering loop of lines 246-250). -/
def survivors (chunks : List ObsChunk) : List ObsChunk :=
  chunks.filter (fun c => c.flag = false)

/-- Gathered `int_samp` rows of the surviving chunks. -/
def interped_ints (chunks : List ObsChunk) : List (List Val) :=
  (survivors chunks).map (fun c => c.int_samp)

/-- Gathered `rms` values of the surviving chunks. -/
def interped_rms (chunks : List ObsChunk) : List Val :=
  (survivors chunks).map (fun c => c.rms)

/-- Gathered `int_sim_samp` rows of the surviving chunks. -/
def interped_sim_ints (chunks : List ObsChunk) : List (List Val) :=
  (survivors chunks).map (fun c => c.int_sim_samp)

/-- Per-sample noise accumulator (lines 257-266): at each grid index sum
`rms**2` over the rows whose `int_samp` entry is not NaN there. -/
def rms_arr (ints : List (List Val)) (rmss : List Val) (gridLen : Nat) : List Val :=
  (List.range gridLen).map
    (fun x =>
      (ints.zip rmss).foldl
        (fun acc ir =>
          if (ir.1.getD x none).isNone then acc else optAdd acc (optMul ir.2 ir.2))
        (some 0))

/-- Column-wise `np.nansum(rows, axis=0)` at one grid index. -/
def nansumCol (rows : List (List Val)) (x : Nat) : ℚ :=
  rows.foldl (fun acc row => acc + (row.getD x none).getD 0) 0

/-- Missing-value-aware composite (lines 269-270): column-wise nansum divided by
the noise accumulator. -/
def int_avg_arr (rows : List (List Val)) (rarr : List Val) (gridLen : Nat) : List Val :=
  (List.range gridLen).map
    (fun x => fdiv (some (nansumCol rows x)) (rarr.getD x none))

/-- Output spectrum fields populated by `velocity_stack` (lines 283-285). -/
structure SpectrumOut where
  velocity : List ℚ
  snr : List Val
  int_sim : List Val
  deriving Repr, DecidableEq

/-- Python exceptions surfaced by the pipeline. -/
inductive Err where
  | keyError
  | indexError
  | valueError
  | typeError
  deriving Repr, DecidableEq

/-- Pipeline from the constructed chunk list to the returned spectrum
(lines 180-287): cleaning, weighting (python `max` raises ValueError on an empty
candidate list), resampling onto `np.arange(-vel_width, vel_width, v_res)`,
gathering, noise accumulation, composition, edge trimming, and division by the
composite's own rms. -/
def stackCore (P : Prims) (cfg : Config) (chunks1 : List ObsChunk) (max_int : Val) :
    SpectrumOut × List ObsChunk :=
  let chunks2 := weightStage max_int chunks1
  let velocity_avg := arangeQ (-cfg.vel_width) cfg.vel_width cfg.v_res
  let chunks3 := resampleStage velocity_avg chunks2
  let ints := interped_ints chunks3
  let rmss := interped_rms chunks3
  let sims := interped_sim_ints chunks3
  let rarr := rms_arr ints rmss velocity_avg.length
  let int_avg := int_avg_arr ints rarr velocity_avg.length
  let int_sim_avg := int_avg_arr sims rarr velocity_avg.length
  let int_avg_t := trimEdges int_avg
  let int_sim_avg_t := trimEdges int_sim_avg
  let velocity_t := trimEdges velocity_avg
  let rms_tmp := P.get_rms int_avg_t
  ({ velocity := velocity_t
     snr := int_avg_t.map (fun v => fdiv v rms_tmp)
     int_sim := int_sim_avg_t.map (fun v => fdiv v rms_tmp) },
   chunks3)

def stackFromChunks (P : Prims) (cfg : Config) (chunks : List ObsChunk)
    (peak_ints : List Val) : Except Err (SpectrumOut × List ObsChunk) :=
  let chunks1 := flagStage P cfg chunks
  match peak_ints with
  | [] => .error .valueError
  | _ => .ok (stackCore P cfg chunks1 (pyMax peak_ints))

/-- Selection enum for `params['selection']`. -/
inductive Sel where
  | peaks
  | lines
  deriving Repr, DecidableEq

/-- The params mapping handed to `velocity_stack`; `none` is an absent key. -/
structure Params where
  selection : Option Sel := none
  freq_arr : Option (List ℚ) := none
  int_arr : Option (List Val) := none
  freq_sim : Option (List ℚ) := none
  int_sim : Option (List Val) := none
  res_inp : Option ℚ := none
  dV : Option ℚ := none
  dV_ext : Option ℚ := none
  vlsr : Option ℚ := none
  vel_width : Option ℚ := none
  v_res : Option ℚ := none
  drops : Option (List Nat) := none
  blank_lines : Option Bool := none
  blank_keep_range : Option (ℚ × ℚ) := none
  flag_lines : Option Bool := none
  flag_sigma : Option ℚ := none

/-- Python `params['key']`: KeyError when the key is absent. -/
def req (o : Option α) : Except Err α :=
  match o with
  | some a => .ok a
  | none => .error .keyError

/-- The unpacking block (lines 135-150).  Note line 145 verbatim:
`v_res = params['v_res'] if 'drops' in options else 0.1*dV` — the default is
keyed on the presence of `drops`, not of `v_res`.  The required `vlsr` is read
(KeyError when absent) and then only printed, so its value is dropped here. -/
def unpack (P : Prims) (p : Params) : Except Err Config :=
  match p.freq_arr with
  | none => .error .keyError
  | some freq_arr =>
  match p.int_arr with
  | none => .error .keyError
  | some int_arr =>
  match p.freq_sim with
  | none => .error .keyError
  | some freq_sim =>
  match p.int_sim with
  | none => .error .keyError
  | some int_sim =>
  match p.dV with
  | none => .error .keyError
  | some dV =>
  match p.vlsr with
  | none => .error .keyError
  | some _ =>
  match p.vel_width with
  | none => .error .keyError
  | some vel_width =>
  match (if p.drops.isSome then req p.v_res else .ok (0.1 * dV)) with
  | .error e => .error e
  | .ok v_res =>
    .ok
      { freq_arr := freq_arr
        int_arr := int_arr
        freq_sim := freq_sim
        int_sim := int_sim
        res_inp := match p.res_inp with
          | some r => r
          | none => P.get_res freq_arr
        dV := dV
        dV_ext := p.dV_ext
        vel_width := vel_width
        v_res := v_res
        drops := p.drops.getD []
        blank_lines := p.blank_lines.getD false
        blank_keep_range := p.blank_keep_range.getD (-(3 * dV), 3 * dV)
        flag_lines := p.flag_lines.getD false
        flag_sigma := p.flag_sigma.getD 5 }

/-- Selection branch `params['selection'] == 'peaks'` (lines 156-159).  An
out-of-range index from the peak finder would raise IndexError in python; the
lookups use defaults here, a difference only for ill-behaved primitives. -/
def selPeaks (P : Prims) (cfg : Config) : List ℚ × List Val :=
  let peak_indices := P.find_peaks cfg.freq_sim cfg.int_sim cfg.res_inp cfg.dV
  (peak_indices.map (fun i => cfg.freq_sim.getD i 0),
   peak_indices.map (fun i => cfg.int_sim.getD i none))

/-- Selection branch `params['selection'] == 'lines'` (lines 161-167); with the
key `dV_ext` absent, `dV*dV_ext` multiplies a float by `None` and raises
TypeError. -/
def selLines (P : Prims) (cfg : Config) : Except Err (List ℚ × List Val) :=
  match cfg.dV_ext with
  | none => .error .typeError
  | some e =>
    let peak_indices := P.find_peaks cfg.freq_sim cfg.int_sim cfg.res_inp (cfg.dV * e)
    let peak_freqs := peak_indices.map (fun i => cfg.freq_sim.getD i 0)
    let freq_widths := peak_freqs.map (fun f => cfg.dV * e * f / ckm)
    let pw := peak_freqs.zip freq_widths
    let lls := pw.map (fun xy => P.find_nearestQ cfg.freq_sim (xy.1 - xy.2 / 2))
    let uls := pw.map (fun xy => P.find_nearestQ cfg.freq_sim (xy.1 + xy.2 / 2))
    .ok (peak_freqs,
      (lls.zip uls).map (fun xy => some (nansum (pySlice cfg.int_sim xy.1 xy.2))))

/-- Left-to-right effectful map over `Except`, aborting at the first error, as a
python list comprehension aborts at the first raised exception. -/
def exceptMapM (f : α → Except ε β) : List α → Except ε (List β)
  | [] => .ok []
  | a :: t =>
    match f a with
    | .error e => .error e
    | .ok b =>
      match exceptMapM f t with
      | .error e => .error e
      | .ok bs => .ok (b :: bs)

/-- Chunk extraction (lines 170-176): window bounds by nearest-frequency lookup
on each axis independently, then one `ObsChunk` per candidate; a failing
constructor (empty observed window) aborts with IndexError. -/
def extractChunks (P : Prims) (cfg : Config) (peak_freqs : List ℚ)
    (peak_ints : List Val) : Except Err (List ObsChunk) :=
  let freq_widths := peak_freqs.map (fun f => cfg.vel_width * f / ckm)
  let pw := peak_freqs.zip freq_widths
  let lls_obs := pw.map (fun xy => P.find_nearestQ cfg.freq_arr (xy.1 - xy.2))
  let uls_obs := pw.map (fun xy => P.find_nearestQ cfg.freq_arr (xy.1 + xy.2))
  let lls_sim := pw.map (fun xy => P.find_nearestQ cfg.freq_sim (xy.1 - xy.2))
  let uls_sim := pw.map (fun xy => P.find_nearestQ cfg.freq_sim (xy.1 + xy.2))
  exceptMapM
    (fun c =>
      match mkObsChunk P
          (pySlice cfg.freq_arr (lls_obs.getD c 0) (uls_obs.getD c 0))
          (pySlice cfg.int_arr (lls_obs.getD c 0) (uls_obs.getD c 0))
          (pySlice cfg.freq_sim (lls_sim.getD c 0) (uls_sim.getD c 0))
          (pySlice cfg.int_sim (lls_sim.getD c 0) (uls_sim.getD c 0))
          (peak_ints.getD c none) c with
      | some ch => .ok ch
      | none => .error .indexError)
    (List.range uls_sim.length)

/-- The full `velocity_stack` (lines 66-287): unpack the params mapping, read
`selection`, locate candidates, extract chunks, and run the stacking pipeline.
The `print(vlsr)` at line 178 is output-only and has no effect on the returned
value. -/
def velocity_stack (P : Prims) (p : Params) :
    Except Err (SpectrumOut × List ObsChunk) := do
  let cfg ← unpack P p
  let sel ← req p.selection
  let pk ← match sel with
    | .peaks => .ok (selPeaks P cfg)
    | .lines => selLines P cfg
  let chunks ← extractChunks P cfg pk.1 pk.2
  stackFromChunks P cfg chunks pk.2

/-! Concrete inputs used by closed evaluations. -/

/-- Params mapping with every required key present, `drops` supplied and `v_res`
omitted. -/
def paramsC6 : Params :=
  { selection := some .peaks
    freq_arr := some [1, 2]
    int_arr := some [some 1, some 1]
    freq_sim := some [1, 2]
    int_sim := some [some 1, some 1]
    dV := some 2
    vlsr := some 3
    vel_width := some 4
    drops := some [] }

/-- Configuration whose `drops` list excludes chunk id 0. -/
def cfgDrop0 : Config :=
  { freq_arr := [], int_arr := [], freq_sim := [], int_sim := [], res_inp := 1
    dV := 1, dV_ext := none, vel_width := 4, v_res := 1/2, drops := [0]
    blank_lines := false, blank_keep_range := (-3, 3), flag_lines := false
    flag_sigma := 5 }

/-- A well-formed candidate chunk with id 0. -/
def chunkId0 : ObsChunk :=
  { freq_obs := [1, 2], int_obs := [some 1, some 1], freq_sim := [1, 2]
    int_sim := [some 1, some 1], peak_int := some 1, id := 0, flag := false
    rms := some 1, cfreq := 3/2, velocity := [-1, 1], sim_velocity := [-1, 1] }

/-- Configuration for the extraction of one candidate lying outside the observed
coverage. -/
def cfgNarrow : Config :=
  { freq_arr := [1, 2], int_arr := [some 1, some 1], freq_sim := [1, 2]
    int_sim := [some 1, some 1], res_inp := 1, dV := 1, dV_ext := none
    vel_width := 1, v_res := 1/10, drops := [], blank_lines := false
    blank_keep_range := (-3, 3), flag_lines := false, flag_sigma := 5 }

/-- Configuration enabling the blanking pass with the asymmetric protected band
`blank_keep_range = [0, 6]`. -/
def cfgBlank : Config :=
  { freq_arr := [], int_arr := [], freq_sim := [], int_sim := [], res_inp := 1
    dV := 1, dV_ext := none, vel_width := 8, v_res := 1/2, drops := []
    blank_lines := true, blank_keep_range := (0, 6), flag_lines := false
    flag_sigma := 5 }

/-- Chunk whose velocity axis is `[-8,-6,-4,-2,0,2,4,6]` with a strong (amplitude
100) sample at velocity +4, inside the band `[0, 6]`. -/
def chunkBlank : ObsChunk :=
  { freq_obs := [ckm - 8, ckm - 6, ckm - 4, ckm - 2, ckm, ckm + 2, ckm + 4, ckm + 6]
    int_obs := [some 0, some 0, some 0, some 0, some 0, some 0, some 100, some 0]
    freq_sim := [ckm - 8, ckm, ckm + 6]
    int_sim := [some 0, some 0, some 0]
    peak_int := some 1, id := 0, flag := false, rms := some 1, cfreq := ckm
    velocity := [-8, -6, -4, -2, 0, 2, 4, 6], sim_velocity := [-8, 0, 6] }

/-- A flagged candidate chunk carrying the dominating peak intensity 5. -/
def chunkFlaggedMax : ObsChunk :=
  { freq_obs := [1, 2], int_obs := [some 1, some 1], freq_sim := [1, 2]
    int_sim := [some 1, some 1], peak_int := some 5, id := 0, flag := true
    rms := some 1, cfreq := 3/2, velocity := [-1, 1], sim_velocity := [-1, 1] }

/-- Chunk resampled for the composite counterexample: its observed velocity span
is `[-1, 1]` but its simulated span is only `[0, 1]`. -/
def chunkObsWide : ObsChunk :=
  { freq_obs := [1, 2], int_obs := [some 1, some 1], freq_sim := [1, 2]
    int_sim := [some 1, some 1], peak_int := some 1, id := 0, flag := false
    rms := some 1, cfreq := 3/2, velocity := [-1, 1], sim_velocity := [0, 1]
    int_weighted := [some 1, some 1], int_sim_weighted := [some 1, some 1] }

/-- Chunk whose observed and simulated spans both cover `[-1, 1]`. -/
def chunkBothWide : ObsChunk :=
  { freq_obs := [1, 2], int_obs := [some 1, some 1], freq_sim := [1, 2]
    int_sim := [some 1, some 1], peak_int := some 1, id := 1, flag := false
    rms := some 1, cfreq := 3/2, velocity := [-1, 1], sim_velocity := [-1, 1]
    int_weighted := [some 1, some 1], int_sim_weighted := [some 1, some 1] }

/-- The per-grid-index noise accumulator that C1 attributes to `int_sim_avg`:
sum of `rms²` over exactly the rows whose simulated resample is not missing at
that index.  Stated from the spec's words, for comparison with the source's
`rms_arr` (which tests the observed rows instead). -/
def rms_arr_sim_claim (sims : List (List Val)) (rmss : List Val) (gridLen : Nat) :
    List Val :=
  (List.range gridLen).map
    (fun x =>
      (sims.zip rmss).foldl
        (fun acc ir =>
          if (ir.1.getD x none).isNone then acc else optAdd acc (optMul ir.2 ir.2))
        (some 0))

/-- Maximum of a nonempty rational list, python-style (first element as seed). -/
def maxQ : List ℚ → ℚ
  | [] => 0
  | h :: t => t.foldl max h

end Molsim

namespace Molsim

/-! Helper lemmas. -/

theorem foldl_pyMax_map_some (h : ℚ) (t : List ℚ) :
    (t.map some).foldl (fun acc x => if optGT x acc then x else acc) (some h) =
      some (t.foldl max h) := by
  induction t generalizing h with
  | nil => rfl
  | cons a t ih =>
    simp only [List.map_cons, List.foldl_cons]
    have hmax : (if optGT (some a) (some h) then some a else some h) = some (max h a) := by
      by_cases hlt : h < a
      · simp [optGT, hlt, max_eq_right hlt.le]
      · simp [optGT, hlt, max_eq_left (le_of_not_lt hlt)]
    rw [hmax]
    exact ih (max h a)

theorem pyMax_map_some (l : List ℚ) (hl : l ≠ []) : pyMax (l.map some) = some (maxQ l) := by
  cases l with
  | nil => exact absurd rfl hl
  | cons h t =>
    simp only [List.map_cons, pyMax, maxQ]
    exact foldl_pyMax_map_some h t

theorem le_foldl_max (h : ℚ) (t : List ℚ) : h ≤ t.foldl max h := by
  induction t generalizing h with
  | nil => exact le_refl h
  | cons a t ih => exact le_trans (le_max_left h a) (ih (max h a))

theorem mem_le_foldl_max (t : List ℚ) (h a : ℚ) (ha : a ∈ t) : a ≤ t.foldl max h := by
  induction t generalizing h with
  | nil => cases ha
  | cons b t ih =>
    rcases List.mem_cons.1 ha with rfl | hm
    · exact le_trans (le_max_right h a) (le_foldl_max _ _)
    · exact ih _ hm

theorem foldl_max_le (t : List ℚ) (h b : ℚ) (hh : h ≤ b) (hb : ∀ a ∈ t, a ≤ b) :
    t.foldl max h ≤ b := by
  induction t generalizing h with
  | nil => exact hh
  | cons a t ih =>
    exact ih (max h a) (max_le hh (hb a (List.mem_cons_self a t)))
      (fun x hx => hb x (List.mem_cons_of_mem _ hx))

theorem mem_le_maxQ (l : List ℚ) (a : ℚ) (ha : a ∈ l) : a ≤ maxQ l := by
  cases l with
  | nil => cases ha
  | cons h t =>
    rcases List.mem_cons.1 ha with rfl | hm
    · exact le_foldl_max _ _
    · exact mem_le_foldl_max _ _ _ hm

theorem maxQ_le (l : List ℚ) (b : ℚ) (hl : l ≠ []) (hb : ∀ a ∈ l, a ≤ b) :
    maxQ l ≤ b := by
  cases l with
  | nil => exact absurd rfl hl
  | cons h t =>
    exact foldl_max_le _ _ _ (hb h (List.mem_cons_self h t))
      (fun x hx => hb x (List.mem_cons_of_mem _ hx))

theorem arange_neg1_1 : arangeQ (-1) 1 (1/2) = [-1, -1/2, 0, 1/2] := by
  have hq : ((1:ℚ) - (-1)) / (1/2) = ((4:ℤ) : ℚ) := by norm_num
  rw [arangeQ, hq, Int.ceil_intCast]
  have hr : List.range (Int.toNat 4) = [0, 1, 2, 3] := by decide
  rw [hr]
  norm_num

theorem arange_neg4_4 : arangeQ (-4) 4 (1/2) =
    [-4, -7/2, -3, -5/2, -2, -3/2, -1, -1/2, 0, 1/2, 1, 3/2, 2, 5/2, 3, 7/2] := by
  have hq : ((4:ℚ) - (-4)) / (1/2) = ((16:ℤ) : ℚ) := by norm_num
  rw [arangeQ, hq, Int.ceil_intCast]
  have hr : List.range (Int.toNat 16) =
      [0, 1, 2, 3, 4, 5, 6, 7, 8, 9, 10, 11, 12, 13, 14, 15] := by decide
  rw [hr]
  norm_num

/-! Theorems. -/

theorem obs_weight_some (p M r : ℚ) (hM : M ≠ 0) (hr : r ≠ 0) :
    obs_weight (some p) (some M) (some r) = some (p / M / (r * r)) := by
  simp [obs_weight, fdiv, optMul, hM, mul_ne_zero hr hr]

/-- Claim C8: the weight of the weighting stage, `(peak_int / max(all peak_ints))
/ rms²`, is monotonically non-decreasing in the chunk's own `peak_int` (all other
candidates' peak intensities and the chunk's rms held fixed — note the
normalising maximum itself moves with `peak_int` once it dominates the rest, so
the dependence is non-strict) and monotonically non-increasing in `rms` for
positive rms. -/
theorem C8_weight_monotone (qs : List ℚ) (i : Nat) (hi : i < qs.length)
    (p p' r r' : ℚ) (hp : 0 < p) (hpp : p ≤ p') (hr : 0 < r) (hrr : r ≤ r') :
    optLe (obs_weight (some p) (pyMax ((qs.set i p).map some)) (some r))
        (obs_weight (some p') (pyMax ((qs.set i p').map some)) (some r)) ∧
      optLe (obs_weight (some p) (pyMax ((qs.set i p).map some)) (some r'))
        (obs_weight (some p) (pyMax ((qs.set i p).map some)) (some r)) := by
  have hne1 : qs.set i p ≠ [] := by
    have : 0 < (qs.set i p).length := by simpa using (Nat.lt_of_le_of_lt (Nat.zero_le i) hi)
    exact List.ne_nil_of_length_pos this
  have hne2 : qs.set i p' ≠ [] := by
    have : 0 < (qs.set i p').length := by simpa using (Nat.lt_of_le_of_lt (Nat.zero_le i) hi)
    exact List.ne_nil_of_length_pos this
  have hpmem : p ∈ qs.set i p := List.mem_set qs i hi p
  have hp'mem : p' ∈ qs.set i p' := List.mem_set qs i hi p'
  have hpM1 : p ≤ maxQ (qs.set i p) := mem_le_maxQ _ _ hpmem
  have hp'M2 : p' ≤ maxQ (qs.set i p') := mem_le_maxQ _ _ hp'mem
  have hM1pos : 0 < maxQ (qs.set i p) := lt_of_lt_of_le hp hpM1
  have hM2pos : 0 < maxQ (qs.set i p') := lt_of_lt_of_le (lt_of_lt_of_le hp hpp) hp'M2
  have hM2ub : maxQ (qs.set i p') ≤ max (maxQ (qs.set i p)) p' := by
    refine maxQ_le _ _ hne2 (fun a ha => ?_)
    rw [← List.set_set (a := p) (b := p')] at ha
    rcases List.mem_or_eq_of_mem_set ha with hmem | rfl
    · exact le_trans (mem_le_maxQ _ _ hmem) (le_max_left _ _)
    · exact le_max_right _ _
  have hr2 : (0 : ℚ) < r * r := mul_pos hr hr
  have hw1 : obs_weight (some p) (pyMax ((qs.set i p).map some)) (some r) =
      some (p / maxQ (qs.set i p) / (r * r)) := by
    rw [pyMax_map_some _ hne1]
    simp [obs_weight, fdiv, optMul, ne_of_gt hM1pos, ne_of_gt hr2]
  have hw2 : obs_weight (some p') (pyMax ((qs.set i p').map some)) (some r) =
      some (p' / maxQ (qs.set i p') / (r * r)) := by
    rw [pyMax_map_some _ hne2]
    simp [obs_weight, fdiv, optMul, ne_of_gt hM2pos, ne_of_gt hr2]
  constructor
  · refine ⟨_, _, hw1, hw2, ?_⟩
    have hinner : p / maxQ (qs.set i p) ≤ p' / maxQ (qs.set i p') := by
      rw [div_le_div_iff hM1pos hM2pos]
      rcases le_max_iff.1 hM2ub with h2 | h2
      · exact mul_le_mul hpp h2 hM2pos.le (lt_of_lt_of_le hp hpp).le
      · calc p * maxQ (qs.set i p') ≤ maxQ (qs.set i p) * p' :=
              mul_le_mul hpM1 h2 hM2pos.le hM1pos.le
          _ = p' * maxQ (qs.set i p) := mul_comm _ _
    exact (div_le_div_right hr2).mpr hinner
  · have hr'2 : (0 : ℚ) < r' * r' := mul_pos (lt_of_lt_of_le hr hrr) (lt_of_lt_of_le hr hrr)
    have hw1' : obs_weight (some p) (pyMax ((qs.set i p).map some)) (some r') =
        some (p / maxQ (qs.set i p) / (r' * r')) := by
      rw [pyMax_map_some _ hne1]
      simp [obs_weight, fdiv, optMul, ne_of_gt hM1pos, ne_of_gt hr'2]
    have hq : 0 < p / maxQ (qs.set i p) := div_pos hp hM1pos
    have hden : r * r ≤ r' * r' := mul_le_mul hrr hrr hr.le (lt_of_lt_of_le hr hrr).le
    exact ⟨_, _, hw1', hw1, div_le_div_of_nonneg_left hq.le hr2 hden⟩

/-- Witness for C8 at `qs = [2]`, `i = 0`, `p = 1 ≤ p' = 3`, `r = 1 ≤ r' = 2`. -/
theorem C8_weight_monotone_witness :
    (0 : Nat) < ([2] : List ℚ).length ∧
      (optLe (obs_weight (some 1) (pyMax ((([2] : List ℚ).set 0 1).map some)) (some 1))
          (obs_weight (some 3) (pyMax ((([2] : List ℚ).set 0 3).map some)) (some 1)) ∧
        optLe (obs_weight (some 1) (pyMax ((([2] : List ℚ).set 0 1).map some)) (some 2))
          (obs_weight (some 1) (pyMax ((([2] : List ℚ).set 0 1).map some)) (some 1))) :=
  ⟨by norm_num,
   C8_weight_monotone [2] 0 (by norm_num) 1 3 1 2 (by norm_num) (by norm_num)
     (by norm_num) (by norm_num)⟩

/-- Claim C10: the normalising maximum of the weighting stage is taken over the
peak intensities of all candidates — here candidate `j` is flagged yet its
`peak_int` dominates, so every surviving chunk's weight is
`peak_int / qs[j] / rms²`, strictly smaller than it would be under any smaller
normaliser `M'` (such as the surviving candidates' own maximum). -/
theorem C10_normalization_includes_flagged (qs : List ℚ) (j : Nat) (hj : j < qs.length)
    (hmax : ∀ a ∈ qs, a ≤ qs.getD j 0) (chunks : List ObsChunk) (cj : ObsChunk)
    (hcj : chunks.get? j = some cj) (hcjflag : cj.flag = true)
    (hcjpeak : cj.peak_int = some (qs.getD j 0)) (i : Nat) (c : ObsChunk)
    (hc : chunks.get? i = some c) (hflag : c.flag = false) (p r : ℚ)
    (hpeak : c.peak_int = some p) (hrms : c.rms = some r) (hp : 0 < p) (hr : 0 < r)
    (M' : ℚ) (hM'pos : 0 < M') (hM'lt : M' < qs.getD j 0) :
    pyMax (qs.map some) = some (qs.getD j 0) ∧
      ((weightStage (pyMax (qs.map some)) chunks).get? i).map ObsChunk.weight =
        some (some (p / qs.getD j 0 / (r * r))) ∧
      p / qs.getD j 0 / (r * r) < p / M' / (r * r) := by
  have hne : qs ≠ [] := List.ne_nil_of_length_pos (lt_of_le_of_lt (Nat.zero_le j) hj)
  have hqjmem : qs.getD j 0 ∈ qs := by
    rw [List.getD_eq_getElem qs 0 hj]
    exact List.getElem_mem hj
  have h1 : maxQ qs = qs.getD j 0 :=
    le_antisymm (maxQ_le _ _ hne hmax) (mem_le_maxQ _ _ hqjmem)
  have hpy : pyMax (qs.map some) = some (qs.getD j 0) := by
    rw [pyMax_map_some _ hne, h1]
  have hq0 : 0 < qs.getD j 0 := lt_trans hM'pos hM'lt
  have hr2 : (0 : ℚ) < r * r := mul_pos hr hr
  refine ⟨hpy, ?_, ?_⟩
  · rw [weightStage, List.get?_map, hc, Option.map_some', Option.map_some']
    simp only [weightChunk, hflag, if_true, reduceIte]
    rw [hpeak, hrms, hpy, obs_weight_some _ _ _ (ne_of_gt hq0) (ne_of_gt hr)]
  · have hinner : p / qs.getD j 0 < p / M' := div_lt_div_of_pos_left hp hM'pos hM'lt
    exact div_lt_div_of_pos_right hinner hr2

/-- Witness for C10: candidate 0 is flagged with the dominating peak intensity 5;
the surviving candidate 1 (peak 1, rms 1) is weighted by `1/5`, strictly less
than the `1/1` a survivors-only normalisation (`M' = 1`) would give. -/
theorem C10_normalization_includes_flagged_witness :
    (0 : Nat) < ([5, 1] : List ℚ).length ∧
      (pyMax (([5, 1] : List ℚ).map some) = some (([5, 1] : List ℚ).getD 0 0) ∧
        ((weightStage (pyMax (([5, 1] : List ℚ).map some))
              [chunkFlaggedMax, chunkBothWide]).get? 1).map ObsChunk.weight =
          some (some (1 / ([5, 1] : List ℚ).getD 0 0 / (1 * 1))) ∧
        1 / ([5, 1] : List ℚ).getD 0 0 / ((1 : ℚ) * 1) < 1 / 1 / (1 * 1)) :=
  ⟨by norm_num,
   C10_normalization_includes_flagged [5, 1] 0 (by norm_num)
     (by intro a ha; fin_cases ha <;> norm_num) [chunkFlaggedMax, chunkBothWide]
     chunkFlaggedMax rfl rfl (by norm_num [chunkFlaggedMax]) 1 chunkBothWide rfl rfl
     1 1 rfl rfl (by norm_num) (by norm_num) 1 (by norm_num) (by norm_num)⟩

/-- Claim C2: in the weighting stage every surviving (unflagged) chunk receives
`weight = (peak_int / max(all candidate peak_ints)) / rms²`, and this scalar
weight multiplies `int_obs` and `int_sim` elementwise to give `int_weighted` and
`int_sim_weighted`. -/
theorem C2_weight_formula_and_application (peak_ints : List Val)
    (chunks : List ObsChunk) (i : Nat) (c : ObsChunk)
    (hc : chunks.get? i = some c) (hflag : c.flag = false) :
    ∃ c', (weightStage (pyMax peak_ints) chunks).get? i = some c' ∧
      c'.weight = fdiv (fdiv c.peak_int (pyMax peak_ints)) (optMul c.rms c.rms) ∧
      c'.int_weighted = c.int_obs.map (fun v => optMul v c'.weight) ∧
      c'.int_sim_weighted = c.int_sim.map (fun v => optMul v c'.weight) := by
  refine ⟨weightChunk (pyMax peak_ints) c, ?_, ?_, ?_, ?_⟩
  · rw [weightStage, List.get?_map, hc, Option.map_some']
  · simp [weightChunk, hflag, obs_weight]
  · simp [weightChunk, hflag, obs_weight]
  · simp [weightChunk, hflag, obs_weight]

/-- Witness for C2 at one unflagged chunk and candidate peak list `[some 2]`. -/
theorem C2_weight_formula_and_application_witness :
    [chunkId0].get? 0 = some chunkId0 ∧
      ∃ c', (weightStage (pyMax [some 2]) [chunkId0]).get? 0 = some c' ∧
        c'.weight = fdiv (fdiv chunkId0.peak_int (pyMax [some 2]))
          (optMul chunkId0.rms chunkId0.rms) ∧
        c'.int_weighted = chunkId0.int_obs.map (fun v => optMul v c'.weight) ∧
        c'.int_sim_weighted = chunkId0.int_sim.map (fun v => optMul v c'.weight) :=
  ⟨rfl, C2_weight_formula_and_application [some 2] [chunkId0] 0 chunkId0 rfl rfl⟩

/-- Queries strictly below every abscissa interpolate to the NaN `left` fill. -/
theorem np_interp_below (x : ℚ) (xp : List ℚ) (fp : List Val)
    (hx : ∀ v ∈ xp, x < v) : np_interp x xp fp = none := by
  cases xp with
  | nil => cases fp <;> rfl
  | cons x0 xs =>
    cases fp with
    | nil => rfl
    | cons f0 fs =>
      simp [np_interp, hx x0 (List.mem_cons_self x0 xs)]

/-- Queries strictly above every abscissa interpolate to the NaN `right` fill. -/
theorem np_interp_above (x : ℚ) (xp : List ℚ) (fp : List Val)
    (hx : ∀ v ∈ xp, v < x) : np_interp x xp fp = none := by
  cases xp with
  | nil => cases fp <;> rfl
  | cons x0 xs =>
    cases fp with
    | nil => rfl
    | cons f0 fs =>
      have h0 : x0 < x := hx x0 (List.mem_cons_self x0 xs)
      have hlast : List.getLastD xs x0 < x := hx _ (List.getLastD_mem_cons xs x0)
      simp only [np_interp]
      rw [if_neg (not_lt.2 h0.le), if_pos hlast]

/-- Claim C3: on the shared grid `np.arange(-vel_width, vel_width, v_res)`, every
grid point strictly outside a surviving chunk's own native velocity range (below
every velocity sample or above every velocity sample) resamples to a missing
value in `int_samp`, and likewise for `int_sim_samp` over `sim_velocity` — never
an extrapolated value. -/
theorem C3_no_extrapolation_outside_native_range (vel_width v_res : ℚ)
    (c : ObsChunk) (hflag : c.flag = false) (i : Nat) (g : ℚ)
    (hg : (arangeQ (-vel_width) vel_width v_res).get? i = some g) :
    (((∀ v ∈ c.velocity, g < v) ∨ (∀ v ∈ c.velocity, v < g)) →
        (resampleChunk (arangeQ (-vel_width) vel_width v_res) c).int_samp.get? i =
          some none) ∧
      (((∀ v ∈ c.sim_velocity, g < v) ∨ (∀ v ∈ c.sim_velocity, v < g)) →
        (resampleChunk (arangeQ (-vel_width) vel_width v_res) c).int_sim_samp.get? i =
          some none) := by
  constructor
  · intro h
    rw [resampleChunk, if_pos hflag]
    show ((arangeQ (-vel_width) vel_width v_res).map
      (fun g => np_interp g c.velocity c.int_weighted)).get? i = some none
    rw [List.get?_map, hg, Option.map_some']
    rcases h with h | h
    · rw [np_interp_below g c.velocity c.int_weighted h]
    · rw [np_interp_above g c.velocity c.int_weighted h]
  · intro h
    rw [resampleChunk, if_pos hflag]
    show ((arangeQ (-vel_width) vel_width v_res).map
      (fun g => np_interp g c.sim_velocity c.int_sim_weighted)).get? i = some none
    rw [List.get?_map, hg, Option.map_some']
    rcases h with h | h
    · rw [np_interp_below g c.sim_velocity c.int_sim_weighted h]
    · rw [np_interp_above g c.sim_velocity c.int_sim_weighted h]

/-- Witness for C3: the grid point `-1` of `np.arange(-1, 1, 1/2)` lies strictly
below the simulated velocity span `[0, 1]` of `chunkObsWide`, so its simulated
resample is missing there. -/
theorem C3_no_extrapolation_outside_native_range_witness :
    (arangeQ (-1) 1 (1/2)).get? 0 = some (-1) ∧
      (resampleChunk (arangeQ (-1) 1 (1/2)) chunkObsWide).int_sim_samp.get? 0 =
        some none :=
  ⟨by rw [arange_neg1_1]; rfl,
   (C3_no_extrapolation_outside_native_range 1 (1/2) chunkObsWide rfl 0 (-1)
       (by rw [arange_neg1_1]; rfl)).2
     (Or.inl (by intro v hv; fin_cases hv <;> norm_num [chunkObsWide]))⟩

theorem rms_fold_sum (x : Nat) (l : List (List Val × ℚ)) (a : ℚ) :
    (l.map (Prod.map id some)).foldl
        (fun acc ir =>
          if (ir.1.getD x none).isNone then acc else optAdd acc (optMul ir.2 ir.2))
        (some a) =
      some (a + ((l.filter (fun ir => !(ir.1.getD x none).isNone)).map
        (fun ir => ir.2 * ir.2)).sum) := by
  induction l generalizing a with
  | nil => simp
  | cons hd t ih =>
    rcases hd with ⟨row, r⟩
    simp only [List.map_cons, List.foldl_cons, Prod.map_mk, id_eq, List.filter_cons]
    rcases hrow : row.getD x none with _ | q
    · simp only [hrow, Option.isNone_none, if_true, Bool.not_true, Bool.false_eq_true,
        if_false]
      exact ih a
    · simp only [hrow, Option.isNone_some, Bool.false_eq_true, if_false, Bool.not_false,
        if_true]
      have hval : optAdd (some a) (optMul (some r) (some r)) = some (a + r * r) := rfl
      rw [hval, ih, List.map_cons, List.sum_cons, add_assoc]

/-- Claim C1 (amended): at every grid index `x` the accumulator `rms_arr[x]` is
the sum of `rms²` over exactly the surviving rows whose `int_samp` entry is not
missing at `x`, and `int_avg[x]` is the missing-value-aware column sum divided by
`rms_arr[x]`; `int_sim_avg[x]` divides the simulated column sum by the same
observed-based `rms_arr[x]` — not by a denominator recomputed from missing
entries of the simulated resamples. -/
theorem C1_noise_accumulator_and_composite (rs : List ℚ) (ints sims : List (List Val))
    (gridLen x : Nat) (hx : x < gridLen) (S : ℚ)
    (hSdef : S = (((ints.zip rs).filter (fun ir => !(ir.1.getD x none).isNone)).map
      (fun ir => ir.2 * ir.2)).sum) (hS0 : S ≠ 0) :
    (rms_arr ints (rs.map some) gridLen).get? x = some (some S) ∧
      (int_avg_arr ints (rms_arr ints (rs.map some) gridLen) gridLen).get? x =
        some (some (nansumCol ints x / S)) ∧
      (int_avg_arr sims (rms_arr ints (rs.map some) gridLen) gridLen).get? x =
        some (some (nansumCol sims x / S)) := by
  have harr : (rms_arr ints (rs.map some) gridLen).get? x = some (some S) := by
    rw [rms_arr, List.get?_map, List.get?_range hx, Option.map_some',
      List.zip_map_right, rms_fold_sum, hSdef, zero_add]
  have hgetD : (rms_arr ints (rs.map some) gridLen).getD x none = some S := by
    have hd : (rms_arr ints (rs.map some) gridLen).getD x none =
        ((rms_arr ints (rs.map some) gridLen).get? x).getD none := rfl
    rw [hd, harr, Option.getD_some]
  refine ⟨harr, ?_, ?_⟩
  · rw [int_avg_arr, List.get?_map, List.get?_range hx, Option.map_some', hgetD]
    simp [fdiv, hS0]
  · rw [int_avg_arr, List.get?_map, List.get?_range hx, Option.map_some', hgetD]
    simp [fdiv, hS0]

/-- Witness for C1 at two rows: the first row is missing at the (single) grid
index, so the accumulator is the second row's `rms² = 1`. -/
theorem C1_noise_accumulator_and_composite_witness :
    (0 : Nat) < 1 ∧
      ((rms_arr [[none], [some 1]] (([1, 1] : List ℚ).map some) 1).get? 0 =
          some (some 1) ∧
        (int_avg_arr [[none], [some 1]]
            (rms_arr [[none], [some 1]] (([1, 1] : List ℚ).map some) 1) 1).get? 0 =
          some (some (nansumCol [[none], [some 1]] 0 / 1)) ∧
        (int_avg_arr [[some 1], [some 1]]
            (rms_arr [[none], [some 1]] (([1, 1] : List ℚ).map some) 1) 1).get? 0 =
          some (some (nansumCol [[some 1], [some 1]] 0 / 1))) :=
  ⟨by norm_num,
   C1_noise_accumulator_and_composite [1, 1] [[none], [some 1]] [[some 1], [some 1]]
     1 0 (by norm_num) 1 (by norm_num [List.filter]) (by norm_num)⟩

/-- Counterexample to C1 as stated: two surviving chunks resampled onto
`np.arange(-1, 1, 1/2)`; the first covers the grid point `-1` in its observed
velocity span `[-1, 1]` but not in its simulated span `[0, 1]`.  The code's
`int_sim_avg` at that index divides by the observed-based `rms_arr = 2` and
yields `1/2`, while the claimed rule (denominator excluding chunks whose
simulated resample is missing there) would yield `1`. -/
theorem C1_sim_denominator_counterexample :
    (int_avg_arr
        (interped_sim_ints
          (resampleStage (arangeQ (-1) 1 (1/2)) [chunkObsWide, chunkBothWide]))
        (rms_arr
          (interped_ints
            (resampleStage (arangeQ (-1) 1 (1/2)) [chunkObsWide, chunkBothWide]))
          (interped_rms
            (resampleStage (arangeQ (-1) 1 (1/2)) [chunkObsWide, chunkBothWide]))
          (arangeQ (-1) 1 (1/2)).length)
        (arangeQ (-1) 1 (1/2)).length).get? 0 = some (some (1/2)) ∧
      (int_avg_arr
        (interped_sim_ints
          (resampleStage (arangeQ (-1) 1 (1/2)) [chunkObsWide, chunkBothWide]))
        (rms_arr_sim_claim
          (interped_sim_ints
            (resampleStage (arangeQ (-1) 1 (1/2)) [chunkObsWide, chunkBothWide]))
          (interped_rms
            (resampleStage (arangeQ (-1) 1 (1/2)) [chunkObsWide, chunkBothWide]))
          (arangeQ (-1) 1 (1/2)).length)
        (arangeQ (-1) 1 (1/2)).length).get? 0 = some (some 1) ∧
      ¬ ((1 : ℚ)/2 = 1) := by
  refine ⟨?_, ?_, by norm_num⟩ <;>
  · rw [arange_neg1_1]
    norm_num [resampleStage, resampleChunk, chunkObsWide, chunkBothWide, np_interp,
      interpAux, lerpVal, optAdd, optMul, optSub, fdiv, survivors, interped_sim_ints,
      interped_ints, interped_rms, rms_arr, rms_arr_sim_claim, int_avg_arr, nansumCol,
      List.getLastD, List.range_succ, List.filter, Option.some_ne_none]

theorem weightChunk_flag (m : Val) (c : ObsChunk) : (weightChunk m c).flag = c.flag := by
  by_cases h : c.flag = false <;> simp [weightChunk, h]

theorem resampleChunk_flag (grid : List ℚ) (c : ObsChunk) :
    (resampleChunk grid c).flag = c.flag := by
  by_cases h : c.flag = false <;> simp [resampleChunk, h]

theorem survivors_eq_nil (l : List ObsChunk) (h : ∀ c ∈ l, c.flag = true) :
    survivors l = [] := by
  rw [survivors, List.filter_eq_nil]
  intro c hc
  simp [h c hc]

theorem mem_of_trimEdges {α : Type} {a : α} {l : List α} (h : a ∈ trimEdges l) :
    a ∈ l :=
  List.mem_of_mem_drop (List.mem_of_mem_take h)

theorem int_avg_arr_nil (rmss : List Val) (n : Nat) :
    ∀ a ∈ int_avg_arr [] (rms_arr [] rmss n) n, a = none := by
  intro a ha
  rw [int_avg_arr] at ha
  rcases List.mem_map.1 ha with ⟨x, hx, rfl⟩
  have hxn : x < n := List.mem_range.1 hx
  have hget : (rms_arr [] rmss n).get? x = some (some 0) := by
    rw [rms_arr, List.get?_map, List.get?_range hxn, Option.map_some',
      List.zip_nil_left]
    rfl
  have hgetD : (rms_arr [] rmss n).getD x none = some 0 := by
    have hd : (rms_arr [] rmss n).getD x none =
        ((rms_arr [] rmss n).get? x).getD none := rfl
    rw [hd, hget, Option.getD_some]
  rw [hgetD]
  rfl

theorem stackCore_all_missing (P : Prims) (cfg : Config) (chunks1 : List ObsChunk)
    (m : Val)
    (h : survivors (resampleStage (arangeQ (-cfg.vel_width) cfg.vel_width cfg.v_res)
      (weightStage m chunks1)) = []) :
    (∀ v ∈ (stackCore P cfg chunks1 m).1.snr, v = none) ∧
      (∀ v ∈ (stackCore P cfg chunks1 m).1.int_sim, v = none) := by
  have hints : interped_ints (resampleStage
      (arangeQ (-cfg.vel_width) cfg.vel_width cfg.v_res) (weightStage m chunks1)) = [] := by
    rw [interped_ints, h, List.map_nil]
  have hsims : interped_sim_ints (resampleStage
      (arangeQ (-cfg.vel_width) cfg.vel_width cfg.v_res) (weightStage m chunks1)) = [] := by
    rw [interped_sim_ints, h, List.map_nil]
  constructor
  · intro v hv
    simp only [stackCore, hints] at hv
    rcases List.mem_map.1 hv with ⟨a, ha, rfl⟩
    rw [int_avg_arr_nil _ _ a (mem_of_trimEdges ha)]
    rfl
  · intro v hv
    simp only [stackCore, hints, hsims] at hv
    rcases List.mem_map.1 hv with ⟨a, ha, rfl⟩
    rw [int_avg_arr_nil _ _ a (mem_of_trimEdges ha)]
    rfl

/-- Claim C5 (amended): when every candidate chunk ends up flagged (with at least
one candidate present), `velocity_stack` does not raise a degenerate-data error —
the stacking pipeline returns a spectrum whose noise accumulator is zero at every
index, so every snr and simulated-snr value is missing (the 0/0 division). -/
theorem C5_all_flagged_returns_all_missing (P : Prims) (cfg : Config)
    (chunks : List ObsChunk) (q : Val) (qs : List Val)
    (hall : ∀ c ∈ flagStage P cfg chunks, c.flag = true) :
    ∃ s cs, stackFromChunks P cfg chunks (q :: qs) = .ok (s, cs) ∧
      (∀ v ∈ s.snr, v = none) ∧ (∀ v ∈ s.int_sim, v = none) := by
  have hall3 : ∀ c ∈ resampleStage (arangeQ (-cfg.vel_width) cfg.vel_width cfg.v_res)
      (weightStage (pyMax (q :: qs)) (flagStage P cfg chunks)), c.flag = true := by
    intro c hc
    rw [resampleStage] at hc
    rcases List.mem_map.1 hc with ⟨c2, hc2, rfl⟩
    rw [weightStage] at hc2
    rcases List.mem_map.1 hc2 with ⟨c1, hc1, rfl⟩
    rw [resampleChunk_flag, weightChunk_flag]
    exact hall c1 hc1
  have hsurv := survivors_eq_nil _ hall3
  have hmiss := stackCore_all_missing P cfg (flagStage P cfg chunks) (pyMax (q :: qs)) hsurv
  exact ⟨(stackCore P cfg (flagStage P cfg chunks) (pyMax (q :: qs))).1,
    (stackCore P cfg (flagStage P cfg chunks) (pyMax (q :: qs))).2, rfl,
    hmiss.1, hmiss.2⟩

/-- Witness for C5: one candidate chunk, flagged through the `drops` list. -/
theorem C5_all_flagged_returns_all_missing_witness :
    (∀ c ∈ flagStage specPrims cfgDrop0 [chunkId0], c.flag = true) ∧
      ∃ s cs, stackFromChunks specPrims cfgDrop0 [chunkId0] (some 1 :: []) = .ok (s, cs) ∧
        (∀ v ∈ s.snr, v = none) ∧ (∀ v ∈ s.int_sim, v = none) :=
  ⟨by decide,
   C5_all_flagged_returns_all_missing specPrims cfgDrop0 [chunkId0] (some 1) []
     (by decide)⟩

/-- Counterexample to C5 as stated: with its single candidate flagged (id 0 in
`drops`), `velocity_stack`'s stacking stage returns `ok` — six trimmed grid
channels, all missing — instead of raising an error. -/
theorem C5_returns_instead_of_raising_counterexample :
    (stackFromChunks specPrims cfgDrop0 [chunkId0] [some 1]).map
        (fun r => (r.1.snr, r.1.int_sim, r.2.map (fun c => c.flag))) =
      .ok ([none, none, none, none, none, none],
        [none, none, none, none, none, none], [true]) := by
  norm_num [stackFromChunks, stackCore, arange_neg4_4, flagStage, cleanChunk,
    weightStage, weightChunk, resampleStage, resampleChunk, survivors, interped_ints,
    interped_rms, interped_sim_ints, rms_arr, int_avg_arr, nansumCol, trimEdges, fdiv,
    cfgDrop0, chunkId0, List.range_succ, Option.some_ne_none, List.replicate,
    specPrims, get_rms_model, Except.map]

theorem pySlice_pySetSlice {α : Type} (xs ys : List α) (a b : Nat)
    (hlen : ys.length = xs.length) :
    pySlice (pySetSlice ys a (pySlice xs a b)) a b = pySlice xs a b := by
  apply List.ext_get?
  intro i
  simp only [pySlice, pySetSlice, List.get?_drop]
  by_cases hab : a + i < b
  · rw [List.get?_take hab, List.get?_take hab, List.append_assoc]
    have hVlen : (((xs.take b).drop a)).length = min b xs.length - a := by
      simp [List.length_drop, List.length_take]
    by_cases hn : a + i < xs.length
    · have hta : (ys.take a).length = a := by
        simp only [List.length_take]
        omega
      rw [List.get?_append_right (by omega : (ys.take a).length ≤ a + i), hta]
      rw [show a + i - a = i from by omega]
      have hiV : i < ((xs.take b).drop a).length := by omega
      rw [List.get?_append hiV, List.get?_drop, List.get?_take hab]
    · have hZlen : (ys.take a ++ (((xs.take b).drop a) ++
          ys.drop (a + ((xs.take b).drop a).length))).length = xs.length := by
        simp only [List.length_append, List.length_take, List.length_drop, hVlen, hlen]
        omega
      rw [List.get?_len_le (by rw [hZlen]; omega),
        List.get?_len_le (by omega : xs.length ≤ a + i)]
  · rw [List.get?_len_le (le_trans (by simp [List.length_take]; omega) (le_refl (a + i))),
      List.get?_len_le (le_trans (by simp [List.length_take]; omega) (le_refl (a + i)))]

theorem simBlankRuns_length (spans : List (Nat × Nat)) (l : List Val) :
    (simBlankRuns spans l).length = l.length := by
  rw [simBlankRuns]
  induction spans generalizing l with
  | nil => rfl
  | cons hd t ih => rw [List.foldl_cons, ih, List.length_mapIdx]

/-- Claim C7 (amended): the slices saved and written back by the blanking pass
are the ones between the samples nearest `cfreq - hi*cfreq/ckm` and
`cfreq - lo*cfreq/ckm` for `blank_keep_range = [lo, hi]` — the *reflected*
velocity band `[-hi, -lo]`, which coincides with `blank_keep_range` for the
symmetric default.  Those sub-arrays of `int_obs` and `int_sim` are byte-identical
before and after the blank-and-restore sequence, unconditionally, and `rms` is
recomputed from the possibly-blanked `int_obs`.  Samples inside `blank_keep_range`
but outside its reflection can still be blanked (see the counterexample). -/
theorem C7_reflected_band_restored_and_rms_reset (P : Prims) (cfg : Config)
    (c : ObsChunk) :
    pySlice (blankPass P cfg c).int_obs
        (P.find_nearestQ c.freq_obs (c.cfreq - cfg.blank_keep_range.2 * c.cfreq / ckm))
        (P.find_nearestQ c.freq_obs (c.cfreq - cfg.blank_keep_range.1 * c.cfreq / ckm)) =
      pySlice c.int_obs
        (P.find_nearestQ c.freq_obs (c.cfreq - cfg.blank_keep_range.2 * c.cfreq / ckm))
        (P.find_nearestQ c.freq_obs (c.cfreq - cfg.blank_keep_range.1 * c.cfreq / ckm)) ∧
      pySlice (blankPass P cfg c).int_sim
        (P.find_nearestQ c.freq_sim (c.cfreq - cfg.blank_keep_range.2 * c.cfreq / ckm))
        (P.find_nearestQ c.freq_sim (c.cfreq - cfg.blank_keep_range.1 * c.cfreq / ckm)) =
      pySlice c.int_sim
        (P.find_nearestQ c.freq_sim (c.cfreq - cfg.blank_keep_range.2 * c.cfreq / ckm))
        (P.find_nearestQ c.freq_sim (c.cfreq - cfg.blank_keep_range.1 * c.cfreq / ckm)) ∧
      (blankPass P cfg c).rms = P.get_rms (blankPass P cfg c).int_obs := by
  refine ⟨?_, ?_, rfl⟩
  · exact pySlice_pySetSlice c.int_obs (blankMask cfg.flag_sigma c.rms c.int_obs)
      (P.find_nearestQ c.freq_obs (c.cfreq - cfg.blank_keep_range.2 * c.cfreq / ckm))
      (P.find_nearestQ c.freq_obs (c.cfreq - cfg.blank_keep_range.1 * c.cfreq / ckm))
      (List.length_map _ _)
  · exact pySlice_pySetSlice c.int_sim (simBlankRuns _ c.int_sim)
      (P.find_nearestQ c.freq_sim (c.cfreq - cfg.blank_keep_range.2 * c.cfreq / ckm))
      (P.find_nearestQ c.freq_sim (c.cfreq - cfg.blank_keep_range.1 * c.cfreq / ckm))
      (simBlankRuns_length _ _)

/-- Counterexample to C7 as stated: with the asymmetric protected band
`blank_keep_range = [0, 6]`, the sample of `chunkBlank` at index 6 — velocity +4,
inside the band — has amplitude 100 exceeding `flag_sigma * rms = 5` and is NaN
after the whole blank-and-restore sequence: the code restores the reflected band
`[-6, 0]` instead, so the claimed protected core is blanked. -/
theorem C7_in_band_sample_blanked_counterexample :
    chunkBlank.velocity.get? 6 = some 4 ∧
      cfgBlank.blank_keep_range.1 ≤ 4 ∧ (4 : ℚ) ≤ cfgBlank.blank_keep_range.2 ∧
      chunkBlank.int_obs.get? 6 = some (some 100) ∧
      (blankPass specPrims cfgBlank chunkBlank).int_obs.get? 6 = some none := by
  refine ⟨rfl, by norm_num [cfgBlank], by norm_num [cfgBlank], rfl, ?_⟩
  norm_num [blankPass, blankMask, simBlankRuns, chunkBlank, cfgBlank, specPrims,
    find_nearest_model, find_nearestV_model, find_nans_model, get_rms_model, ckm,
    pySlice, pySetSlice, optGT, optAbs, optMul, optAdd]

/-- Claim C9: `velocity_stack` reads the required key `vlsr` (its absence is a
KeyError) but its value never flows into the computation: two params mappings
identical except for the value of `vlsr` produce identical stacked spectra and
identical chunk lists. -/
theorem C9_vlsr_independence (P : Prims) (p : Params) (a b : ℚ) :
    velocity_stack P { p with vlsr := some a } =
      velocity_stack P { p with vlsr := some b } := rfl

/-- Claim C6 (code bug): with every required key present, `drops` supplied and
`v_res` omitted, the unpacking raises KeyError instead of defaulting the grid
step to `0.1*dV`; the default is only taken when `drops` is absent — and is then
taken even when `v_res` was supplied (here `dV = 2`, so `0.1*dV = 1/5`). -/
theorem C6_v_res_default_keyed_on_drops :
    unpack specPrims paramsC6 = .error .keyError ∧
      (unpack specPrims { paramsC6 with drops := none }).map (fun cfg => cfg.v_res) =
        .ok (1/5) ∧
      (unpack specPrims { paramsC6 with drops := none, v_res := some 7 }).map
          (fun cfg => cfg.v_res) =
        .ok (1/5) := by
  refine ⟨rfl, ?_, ?_⟩ <;> · simp [unpack, paramsC6, req, Except.map]; norm_num

/-- Claim C4 (code bug): a candidate whose observed window is empty is not
flagged-and-skipped — `ObsChunk.set_cfreq` indexes the empty `freq_obs` and the
constructor fails (IndexError), for every primitive instantiation and whatever
the other arrays hold; consequently the extraction stage aborts on such a
candidate (here a candidate at frequency 0, outside the observed coverage
`[1, 2]`, whose window slice is empty). -/
theorem C4_empty_window_construction_fails :
    (∀ (P : Prims) (io : List Val) (fs : List ℚ) (is : List Val) (pk : Val)
        (id : Nat), mkObsChunk P [] io fs is pk id = none) ∧
      extractChunks specPrims cfgNarrow [0] [some 1] = .error .indexError := by
  constructor
  · intro P io fs is pk id
    rfl
  · simp [extractChunks, cfgNarrow, specPrims, find_nearest_model, pySlice,
      mkObsChunk, cfreqIdx, exceptMapM, ckm]

end Molsim
